import Mathlib

/-!
Verification of the Micro-saas-backend Flask application (`src/app.py`).

Python strings are modelled as lists of characters (`Str`); Python string
methods used by the application (`lower`, `upper`, `strip`, `in`, `split`)
are given as explicit Lean functions below.  Stateful parts (the SQLAlchemy
`Notification` table) are modelled as explicit state passing over a list of
rows; exceptions that the source code catches are modelled as values
(`CheckResult.error` for a raised lookup error, a `Bool` send outcome for a
mail-send failure); exceptions that the source does not catch would
propagate and are outside the modelled behaviour.
-/

namespace MicroSaas

/-- Python strings are modelled as lists of characters. -/
abbrev Str := List Char

/-- Shorthand turning a Lean string literal into the `Str` model. -/
def lit (s : String) : Str := s.data

/-- ASCII lower-casing of one character, as Python `str.lower` acts on ASCII. -/
def charLower (c : Char) : Char :=
  match c with
  | 'A' => 'a' | 'B' => 'b' | 'C' => 'c' | 'D' => 'd' | 'E' => 'e'
  | 'F' => 'f' | 'G' => 'g' | 'H' => 'h' | 'I' => 'i' | 'J' => 'j'
  | 'K' => 'k' | 'L' => 'l' | 'M' => 'm' | 'N' => 'n' | 'O' => 'o'
  | 'P' => 'p' | 'Q' => 'q' | 'R' => 'r' | 'S' => 's' | 'T' => 't'
  | 'U' => 'u' | 'V' => 'v' | 'W' => 'w' | 'X' => 'x' | 'Y' => 'y'
  | 'Z' => 'z' | c => c

/-- ASCII upper-casing of one character, as Python `str.upper` acts on ASCII. -/
def charUpper (c : Char) : Char :=
  match c with
  | 'a' => 'A' | 'b' => 'B' | 'c' => 'C' | 'd' => 'D' | 'e' => 'E'
  | 'f' => 'F' | 'g' => 'G' | 'h' => 'H' | 'i' => 'I' | 'j' => 'J'
  | 'k' => 'K' | 'l' => 'L' | 'm' => 'M' | 'n' => 'N' | 'o' => 'O'
  | 'p' => 'P' | 'q' => 'Q' | 'r' => 'R' | 's' => 'S' | 't' => 'T'
  | 'u' => 'U' | 'v' => 'V' | 'w' => 'W' | 'x' => 'X' | 'y' => 'Y'
  | 'z' => 'Z' | c => c

/-- Python `s.lower()`. -/
def pyLower (s : Str) : Str := s.map charLower

/-- Python `s.upper()`. -/
def pyUpper (s : Str) : Str := s.map charUpper

/-- The characters Python `str.strip()` removes. -/
def isPySpace (c : Char) : Bool :=
  c = ' ' || c = '\t' || c = '\n' || c = '\r' || c = '\x0b' || c = '\x0c'

/-- Python `s.strip()`: drop leading and trailing whitespace. -/
def pyStrip (s : Str) : Str :=
  ((s.dropWhile isPySpace).reverse.dropWhile isPySpace).reverse

/-- Python `c in s` for a one-character needle. -/
def pyContains (s : Str) (c : Char) : Bool := s.contains c

/-! ## The WHOIS availability check (`whoisxml_check`, app.py lines 81-103)

The remote interaction of `requests.get(...)` / `response.json()` is
modelled by a `FetchOutcome` value describing what the network returned:
a transport error (connection failure or timeout raised by `requests.get`),
or a response with an HTTP status code and a body that either failed to
parse as a JSON object or parsed to a JSON object (a list of key/value
fields).  JSON values are modelled only as far as the code inspects them:
strings, objects, and an `other` constructor for everything else that
carries its Python truthiness. -/

/-- A JSON value, as far as `whoisxml_check` inspects it.  `other b` stands
for any non-string non-object value whose Python truthiness is `b`. -/
inductive JVal where
  | str (s : Str)
  | obj (fields : List (Str × JVal))
  | other (truthy : Bool)

/-- Python truthiness of a `JVal` (`if status:`). -/
def jTruthy : JVal → Bool
  | .str s => !s.isEmpty
  | .obj fields => !fields.isEmpty
  | .other t => t

/-- Python `dict.get(key)`: first binding of the key, if any. -/
def jGet (fields : List (Str × JVal)) (key : Str) : Option JVal :=
  (fields.find? (fun kv => kv.1 == key)).map (fun kv => kv.2)

/-- Outcome of the raw `requests.get` + `response.json()` pair. -/
inductive FetchOutcome where
  | transportError
  | response (httpStatus : Nat) (body : Except Unit (List (Str × JVal)))

/-- Result of `whoisxml_check`: a boolean, or the raised `RuntimeError`. -/
inductive CheckResult where
  | ok (available : Bool)
  | error
deriving DecidableEq

/-- `whoisxml_check` (app.py lines 81-103), as a function of what the remote
call returned.  The nested branch `data["DomainInfo"].get(...)` raises
`AttributeError` when `data["DomainInfo"]` is not a dict, which the
`except` turns into the raised `RuntimeError`, i.e. `.error`; likewise
`status.upper()` raises when the status value is truthy but not a string. -/
def whoisxml_check (resp : FetchOutcome) : CheckResult :=
  match resp with
  | .transportError => .error
  | .response _ (.error _) => .error
  | .response _ (.ok data) =>
    match (if (jGet data (lit "DomainInfo")).isSome then
             match jGet data (lit "DomainInfo") with
             | some (.obj info) => Except.ok (jGet info (lit "domainAvailability"))
             | _ => Except.error ()
           else
             Except.ok (jGet data (lit "domainAvailability")) :
           Except Unit (Option JVal)) with
    | .error _ => .error
    | .ok status =>
      match status with
      | some v =>
        if jTruthy v then
          match v with
          | .str s => .ok (pyUpper s == lit "AVAILABLE")
          | _ => .error
        else .ok false
      | none => .ok false

/-! ## Domain suggestions (`generate_suggestions`, app.py lines 109-142) -/

/-- `COMMON_TLDS` (app.py line 109). -/
def COMMON_TLDS : List Str :=
  [lit ".com", lit ".net", lit ".org", lit ".io", lit ".co", lit ".ai",
   lit ".xyz", lit ".tech", lit ".dev", lit ".app", lit ".tv", lit ".me",
   lit ".link", lit ".shop"]

/-- The prefix list of `generate_suggestions` (app.py line 122). -/
def prefixList : List Str :=
  [lit "get", lit "try", lit "the", lit "my", lit "use", lit "go",
   lit "hey", lit "join", lit "is", lit "do", lit "pro", lit "ultra"]

/-- The suffix list of `generate_suggestions` (app.py line 127). -/
def suffixList : List Str :=
  [lit "app", lit "hq", lit "space", lit "online", lit "site", lit "hub",
   lit "labs", lit "io", lit "dev", lit "pro", lit "tv", lit "cloud"]

/-- The `double_suffixes` list of `generate_suggestions` (app.py line 132). -/
def doubleSuffixList : List Str :=
  [lit "hub.io", lit "labs.io", lit "dev.io", lit "app.io", lit "online.io"]

/-- Python `query.split(".")[0]`: the characters before the first dot. -/
def pySplitDotHead (s : Str) : Str := s.takeWhile (fun c => c ≠ '.')

/-- The base label `generate_suggestions` derives from its query:
`query.split(".")[0] if "." in query else query`, after lower-casing. -/
def suggestionLabel (query : Str) : Str :=
  let q := pyLower query
  if pyContains q '.' then pySplitDotHead q else q

/-- The full candidate pool of `generate_suggestions`, in the order the
source appends: TLD variants, then prefix variants, then suffix variants,
then double-suffix variants, then the keyword variants (app.py 115-139). -/
def candidatePool (query : Str) : List Str :=
  let label := suggestionLabel query
  (COMMON_TLDS.map (fun tld => label ++ tld)) ++
  (prefixList.map (fun p => p ++ label ++ lit ".com")) ++
  (suffixList.map (fun s => label ++ s ++ lit ".com")) ++
  (doubleSuffixList.map (fun ds => label ++ lit "." ++ ds)) ++
  [label ++ lit "app.com", label ++ lit "pro.com",
   label ++ lit "online.com", label ++ lit "ai.com"]

/-- Helper of `pyDedup`: keep the elements not seen yet, first occurrence
first, threading the set of keys already emitted (as `dict.fromkeys` does). -/
def pyDedupAux {α : Type} [DecidableEq α] (seen : List α) : List α → List α
  | [] => []
  | x :: xs =>
    if x ∈ seen then pyDedupAux seen xs else x :: pyDedupAux (x :: seen) xs

/-- Python `list(dict.fromkeys(l))`: remove duplicates keeping the first
occurrence of each element. -/
def pyDedup {α : Type} [DecidableEq α] (l : List α) : List α := pyDedupAux [] l

/-- Python `l[:i]` for a possibly negative `i` (a negative index drops
`|i|` elements from the end). -/
def pySlice {α : Type} (i : Int) (l : List α) : List α :=
  if 0 ≤ i then l.take i.toNat else l.take (l.length - i.natAbs)

/-- `generate_suggestions` (app.py lines 111-142): deduplicate the pool
keeping first occurrences, then truncate to `max_suggestions * 3`. -/
def generate_suggestions (query : Str) (max_suggestions : Int) : List Str :=
  pySlice (max_suggestions * 3) (pyDedup (candidatePool query))

/-! ## The registration store and the `/notify` handler
(`Notification` model and `notify`, app.py lines 68-73 and 203-223)

The SQLAlchemy `Notification` table is modelled as a list of rows in
insertion order; the autoincrement primary key is one more than the
largest id in the table. -/

/-- One row of the `Notification` table (app.py lines 68-73). -/
structure Registration where
  id : Nat
  domain : Str
  email : Str
  notified : Bool
  created_at : Nat
deriving DecidableEq

/-- The `Notification` table, in insertion order. -/
abbrev Store := List Registration

/-- The autoincrement id assigned to the next inserted row. -/
def nextId (s : Store) : Nat := (s.map (fun r => r.id)).foldr max 0 + 1

/-- The filter `Notification.query.filter_by(domain=d, email=e,
notified=False)` applied to one row. -/
def matchesActive (domain email : Str) (r : Registration) : Bool :=
  r.domain == domain && r.email == email && r.notified == false

/-- `.first()` over the active-duplicate filter (app.py lines 212-214). -/
def findActive (s : Store) (domain email : Str) : Option Registration :=
  s.find? (matchesActive domain email)

/-- Number of active (notified=False) rows for a (domain, email) pair. -/
def activeCount (s : Store) (domain email : Str) : Nat :=
  (s.filter (matchesActive domain email)).length

/-- Domain normalization of the `/notify` handler (app.py lines 206-210):
`data.get("domain", "").strip().lower()`, then append `".com"` when the
result has no dot. -/
def notifyDomainOf (rawDomain : Str) : Str :=
  let d := pyLower (pyStrip rawDomain)
  if pyContains d '.' then d else d ++ lit ".com"

/-- Email normalization of the `/notify` handler (app.py line 207). -/
def notifyEmailOf (rawEmail : Str) : Str := pyLower (pyStrip rawEmail)

/-- The `/notify` handler's HTTP outcome. -/
inductive NotifyResult where
  | alreadyRegistered
  | registered
deriving DecidableEq

/-- HTTP status code of a `/notify` outcome (app.py lines 217 and 223). -/
def notifyStatus : NotifyResult → Nat
  | .alreadyRegistered => 200
  | .registered => 201

/-- The `/notify` handler (app.py lines 203-223).  A missing `domain` or
`email` field defaults to `""` via `data.get`, so handler input is the
defaulted string.  `now` is the `time.time` value used for `created_at`. -/
def notify (s : Store) (now : Nat) (rawDomain rawEmail : Str) :
    NotifyResult × Store :=
  let domain := notifyDomainOf rawDomain
  let email := notifyEmailOf rawEmail
  match findActive s domain email with
  | some _ => (.alreadyRegistered, s)
  | none =>
    (.registered,
     s ++ [{ id := nextId s, domain := domain, email := email,
             notified := false, created_at := now }])

/-! ## The `/check` handler (`check_domain`, app.py lines 168-199)

The remote lookup is abstracted as an oracle `lookup : Str → CheckResult`
giving, for each domain string, what `whoisxml_check` returns for it
during this request. -/

/-- Domain normalization of the `/check` handler (app.py lines 171-177). -/
def checkDomainOf (rawQuery : Str) : Str :=
  let q := pyLower (pyStrip rawQuery)
  if pyContains q '.' then q else q ++ lit ".com"

/-- The `/check` handler's HTTP outcome: 500 with an error body when the
primary lookup raises, otherwise 200 with the JSON fields. -/
inductive CheckResponse where
  | serverError
  | ok (domain : Str) (available : Bool) (suggestions : List Str)
deriving DecidableEq

/-- The suggestion-filtering loop of `/check` (app.py lines 185-193): for
each candidate, append it when its lookup returns True, stop as soon as
`len(suggestions) >= max_suggestions`, and skip candidates whose lookup
raises. -/
def collectSuggestions (lookup : Str → CheckResult) (maxS : Int) :
    List Str → List Str → List Str
  | acc, [] => acc
  | acc, c :: rest =>
    match lookup c with
    | .error => collectSuggestions lookup maxS acc rest
    | .ok avail =>
      let acc1 := if avail then acc ++ [c] else acc
      if maxS ≤ (acc1.length : Int) then acc1
      else collectSuggestions lookup maxS acc1 rest

/-- The `/check` handler (app.py lines 168-199).  The handler's `query`
variable is `pyLower (pyStrip rawQuery)` and its `domain` variable is
`checkDomainOf rawQuery` (the dot test and `".com"` suffix over that same
`query`); both are written inline here. -/
def check_domain (lookup : Str → CheckResult) (rawQuery : Str)
    (max_suggestions : Int) : CheckResponse :=
  match lookup (checkDomainOf rawQuery) with
  | .error => .serverError
  | .ok available =>
    .ok (checkDomainOf rawQuery) available
      (collectSuggestions lookup max_suggestions []
        (generate_suggestions (pyLower (pyStrip rawQuery)) max_suggestions))

/-! ## The notification poller (`process_notifications`, app.py 229-247)

Within one poll cycle, the outcome of the availability lookup and of the
mail send for each pending row is given by an environment of oracles keyed
by the row; exceptions caught by the handler become values (`.error` for a
raised lookup, `false` for a failed send). -/

/-- Per-cycle outcomes of the two external calls for each row. -/
structure PollEnv where
  lookup : Registration → CheckResult
  sendOk : Registration → Bool

/-- The body of the per-entry loop (app.py lines 232-247): on a lookup
error or an unavailable result the row is untouched; on available, the
mail is sent and only a successful send flips `notified` to `True`. -/
def processEntry (env : PollEnv) (r : Registration) : Registration :=
  match env.lookup r with
  | .error => r
  | .ok false => r
  | .ok true => if env.sendOk r then { r with notified := true } else r

/-- `process_notifications` (app.py lines 229-247): snapshot the pending
rows (`notified=False`) and run the per-entry loop on each; rows already
notified are not part of the snapshot and stay untouched. -/
def process_notifications (env : PollEnv) (s : Store) : Store :=
  s.map (fun r => if r.notified then r else processEntry env r)

/-- Observable external actions of one poll cycle. -/
inductive Event where
  | lookupAttempt (domain : Str)
  | sendAttempt (email domain : Str)
deriving DecidableEq

/-- The external calls the per-entry loop makes for one row: its lookup is
always attempted, and its send is attempted exactly when the lookup
returned available. -/
def entryTrace (env : PollEnv) (r : Registration) : List Event :=
  Event.lookupAttempt r.domain ::
    (match env.lookup r with
     | .ok true => [Event.sendAttempt r.email r.domain]
     | _ => [])

/-- All external calls of one poll cycle, over the pending snapshot. -/
def cycleTrace (env : PollEnv) (s : Store) : List Event :=
  ((s.filter (fun r => !r.notified)).map (entryTrace env)).flatten

/-- Store states reachable through the application: the table starts empty
(`db.create_all` on a fresh database) and is mutated only by the `/notify`
handler and by poll cycles. -/
inductive Reachable : Store → Prop where
  | init : Reachable []
  | notifyStep (s : Store) (now : Nat) (rawD rawE : Str) :
      Reachable s → Reachable (notify s now rawD rawE).2
  | pollStep (s : Store) (env : PollEnv) :
      Reachable s → Reachable (process_notifications env s)

/-! ## Specification-side definitions

These follow the spec's wording (§4.1) and are compared with the code-side
definitions above. -/

/-- Specification-side reading of an extracted status value: a missing
field and every falsy value are unavailable, a truthy string is compared
against `"AVAILABLE"`, and a truthy non-string is malformed (a raised
lookup error). -/
def interpStatus : Option JVal → CheckResult
  | none => .ok false
  | some v =>
    if jTruthy v then
      match v with
      | .str s => .ok (pyUpper s == lit "AVAILABLE")
      | _ => .error
    else .ok false

/-- Case-insensitive ASCII string equality, as the spec's
"AVAILABLE (case-insensitive)". -/
def eqCaseInsensitive (a b : Str) : Prop := pyUpper a = pyUpper b

/-! ## Helper lemmas -/

theorem charLower_eq_dot {c : Char} (h : charLower c = '.') : c = '.' := by
  unfold charLower at h
  split at h <;> first | assumption | (exact absurd h (by decide))

theorem mem_pyStrip {c : Char} {s : Str} (h : c ∈ pyStrip s) : c ∈ s := by
  unfold pyStrip at h
  rw [List.mem_reverse] at h
  have h2 := (List.dropWhile_sublist isPySpace).subset h
  rw [List.mem_reverse] at h2
  exact (List.dropWhile_sublist isPySpace).subset h2

theorem pyContains_false_iff {s : Str} {c : Char} :
    pyContains s c = false ↔ c ∉ s := by
  unfold pyContains
  constructor
  · intro h hmem
    rw [show s.contains c = s.elem c from rfl, List.elem_iff.mpr hmem] at h
    exact Bool.false_ne_true h.symm
  · intro h
    cases hc : s.contains c with
    | false => rfl
    | true => exact absurd (List.elem_iff.mp hc) h

theorem normalized_noDot {q : Str} (h : pyContains q '.' = false) :
    pyContains (pyLower (pyStrip q)) '.' = false := by
  rw [pyContains_false_iff] at h ⊢
  intro hmem
  unfold pyLower at hmem
  obtain ⟨c, hc, hlc⟩ := List.mem_map.mp hmem
  exact h (mem_pyStrip (charLower_eq_dot hlc ▸ hc))

theorem pyDedupAux_sublist {α : Type} [DecidableEq α] :
    ∀ (l seen : List α), (pyDedupAux seen l).Sublist l := by
  intro l
  induction l with
  | nil => intro seen; simp [pyDedupAux]
  | cons x xs ih =>
    intro seen
    unfold pyDedupAux
    split
    · exact (ih seen).trans (List.sublist_cons_self x xs)
    · exact List.Sublist.cons₂ x (ih (x :: seen))

theorem pyDedupAux_nodup {α : Type} [DecidableEq α] :
    ∀ (l seen : List α),
      (pyDedupAux seen l).Nodup ∧ ∀ a ∈ pyDedupAux seen l, a ∉ seen := by
  intro l
  induction l with
  | nil => intro seen; refine ⟨by simp [pyDedupAux], by simp [pyDedupAux]⟩
  | cons x xs ih =>
    intro seen
    unfold pyDedupAux
    split
    · exact ih seen
    · rename_i hx
      obtain ⟨hnd, hmem⟩ := ih (x :: seen)
      refine ⟨List.nodup_cons.mpr ⟨?_, hnd⟩, ?_⟩
      · intro hc
        exact (hmem x hc) (List.mem_cons_self x seen)
      · intro a ha
        rcases List.mem_cons.mp ha with rfl | ha2
        · exact hx
        · intro hseen
          exact (hmem a ha2) (List.mem_cons_of_mem x hseen)

theorem pyDedup_sublist {α : Type} [DecidableEq α] (l : List α) :
    (pyDedup l).Sublist l :=
  pyDedupAux_sublist l []

theorem pyDedup_nodup {α : Type} [DecidableEq α] (l : List α) :
    (pyDedup l).Nodup :=
  (pyDedupAux_nodup l []).1

theorem pySlice_sublist {α : Type} (i : Int) (l : List α) :
    (pySlice i l).Sublist l := by
  unfold pySlice
  split <;> exact List.take_sublist _ _

theorem pySlice_length_le {α : Type} {i : Int} (hi : 0 ≤ i) (l : List α) :
    ((pySlice i l).length : Int) ≤ i := by
  unfold pySlice
  rw [if_pos hi]
  have h1 : (l.take i.toNat).length ≤ i.toNat := by
    rw [List.length_take]; exact min_le_left _ _
  omega

/-! ## Claim theorems -/

/-- C5: for every query string `q` and every positive cap `n`,
`generate_suggestions q n` returns at most `3*n` strings, contains no
duplicate strings, is a prefix-truncation of the first-occurrence
deduplication of the fixed candidate pool, and hence lists candidates in
first-occurrence order of the fixed source lists. -/
theorem generate_suggestions_spec (q : Str) (n : Int) (hn : 0 < n) :
    (generate_suggestions q n).Nodup ∧
    ((generate_suggestions q n).length : Int) ≤ 3 * n ∧
    (generate_suggestions q n).Sublist (pyDedup (candidatePool q)) ∧
    (generate_suggestions q n).Sublist (candidatePool q) := by
  have hsub : (generate_suggestions q n).Sublist (pyDedup (candidatePool q)) :=
    pySlice_sublist _ _
  have hnodup : (pyDedup (candidatePool q)).Nodup := pyDedup_nodup (candidatePool q)
  refine ⟨hsub.nodup hnodup, ?_, hsub, hsub.trans (pyDedup_sublist (candidatePool q))⟩
  have := pySlice_length_le (i := n * 3) (by omega) (pyDedup (candidatePool q))
  unfold generate_suggestions
  omega

/-- Witness for C5 at `q = "foo"`, `n = 2`. -/
theorem generate_suggestions_spec_witness :
    (generate_suggestions (lit "foo") 2).Nodup ∧
    ((generate_suggestions (lit "foo") 2).length : Int) ≤ 3 * 2 ∧
    (generate_suggestions (lit "foo") 2).Sublist (pyDedup (candidatePool (lit "foo"))) ∧
    (generate_suggestions (lit "foo") 2).Sublist (candidatePool (lit "foo")) :=
  generate_suggestions_spec (lit "foo") 2 (by decide)

/-- C4: the availability check consults the nested shape (the status field
under `DomainInfo`) first and falls back to the flat top-level status field
when no `DomainInfo` object is present; a status value is read as available
exactly when it equals "AVAILABLE" case-insensitively and as unavailable
for every other string value and for a missing field; a transport error or
timeout, an unparsable body, and a malformed `DomainInfo` value all
surface as the raised lookup error rather than a boolean result. -/
theorem whoisxml_check_spec (st : Nat) (fields info : List (Str × JVal)) (s : Str) :
    (jGet fields (lit "DomainInfo") = some (.obj info) →
      whoisxml_check (.response st (.ok fields)) =
        interpStatus (jGet info (lit "domainAvailability"))) ∧
    (jGet fields (lit "DomainInfo") = none →
      whoisxml_check (.response st (.ok fields)) =
        interpStatus (jGet fields (lit "domainAvailability"))) ∧
    (interpStatus (some (.str s)) = .ok true ↔ eqCaseInsensitive s (lit "AVAILABLE")) ∧
    interpStatus none = .ok false ∧
    whoisxml_check .transportError = .error ∧
    whoisxml_check (.response st (.error ())) = .error ∧
    (∀ v, jGet fields (lit "DomainInfo") = some v → (∀ i2, v ≠ .obj i2) →
      whoisxml_check (.response st (.ok fields)) = .error) := by
  refine ⟨?_, ?_, ?_, rfl, rfl, rfl, ?_⟩
  · intro h
    simp only [whoisxml_check, h, Option.isSome_some, if_true]
    cases jGet info (lit "domainAvailability") with
    | none => rfl
    | some v => cases v <;> rfl
  · intro h
    simp only [whoisxml_check, h, Option.isSome_none, Bool.false_eq_true, if_false]
    cases jGet fields (lit "domainAvailability") with
    | none => rfl
    | some v => cases v <;> rfl
  · unfold interpStatus eqCaseInsensitive
    cases s with
    | nil => simp [jTruthy, pyUpper, lit]
    | cons c cs =>
      simp only [jTruthy, List.isEmpty_cons, Bool.not_false, if_true]
      constructor
      · intro h
        have : (pyUpper (c :: cs) == lit "AVAILABLE") = true := by
          cases hb : (pyUpper (c :: cs) == lit "AVAILABLE") with
          | true => rfl
          | false => rw [hb] at h; exact absurd h (by decide)
        have h2 := eq_of_beq this
        rw [h2]
        decide
      · intro h
        have h2 : pyUpper (c :: cs) = lit "AVAILABLE" := by
          rw [h]; decide
        rw [beq_iff_eq.mpr h2]
  · intro v hv hne
    simp only [whoisxml_check, hv, Option.isSome_some, if_true]
    cases v with
    | obj i2 => exact absurd rfl (hne i2)
    | str s2 => rfl
    | other t => rfl

/-- Witness for C4: a nested-shape response read through `interpStatus`,
the case-insensitive reading of "Available", and an error response. -/
theorem whoisxml_check_spec_witness :
    (whoisxml_check (.response 200 (.ok [(lit "DomainInfo",
        .obj [(lit "domainAvailability", .str (lit "Available"))])])) =
      interpStatus (some (.str (lit "Available")))) ∧
    (interpStatus (some (.str (lit "Available"))) = .ok true ↔
      eqCaseInsensitive (lit "Available") (lit "AVAILABLE")) ∧
    whoisxml_check (.response 200 (.ok [(lit "DomainInfo", .str (lit "bad"))])) =
      .error :=
  ⟨(whoisxml_check_spec 200
      [(lit "DomainInfo", .obj [(lit "domainAvailability", .str (lit "Available"))])]
      [(lit "domainAvailability", .str (lit "Available"))] (lit "Available")).1 rfl,
   (whoisxml_check_spec 200 [] [] (lit "Available")).2.2.1,
   (whoisxml_check_spec 200 [(lit "DomainInfo", .str (lit "bad"))] [] []).2.2.2.2.2.2
     (.str (lit "bad")) rfl (fun _ h => JVal.noConfusion h)⟩

/-- C9: `whoisxml_check` never inspects the HTTP status code of the remote
response — for a body that parses, the result is a function of the body
alone — and a parsed body carrying no availability field (for example an
API error or quota-exceeded reply) yields `ok false` (unavailable), not a
raised lookup error. -/
theorem whoisxml_check_ignores_httpStatus (st1 st2 : Nat)
    (body : Except Unit (List (Str × JVal))) (fields : List (Str × JVal)) :
    whoisxml_check (.response st1 body) = whoisxml_check (.response st2 body) ∧
    (jGet fields (lit "DomainInfo") = none →
      jGet fields (lit "domainAvailability") = none →
      whoisxml_check (.response st1 (.ok fields)) = .ok false) := by
  constructor
  · cases body with
    | error e => rfl
    | ok data => rfl
  · intro h1 h2
    simp only [whoisxml_check, h1, h2, Option.isSome_none, Bool.false_eq_true, if_false]

/-- Witness for C9: a 402 quota-exceeded style JSON error body is reported
as unavailable. -/
theorem whoisxml_check_ignores_httpStatus_witness :
    whoisxml_check (.response 402 (.ok [(lit "ErrorMessage",
      .obj [(lit "msg", .str (lit "quota exceeded"))])])) = .ok false :=
  (whoisxml_check_ignores_httpStatus 402 0
    (.ok [(lit "ErrorMessage", .obj [(lit "msg", .str (lit "quota exceeded"))])])
    [(lit "ErrorMessage", .obj [(lit "msg", .str (lit "quota exceeded"))])]).2 rfl rfl

theorem activeCount_pos_of_findActive_some {s : Store} {d e : Str}
    {r : Registration} (h : findActive s d e = some r) :
    1 ≤ activeCount s d e := by
  unfold findActive at h
  unfold activeCount
  have hmem : r ∈ s.filter (matchesActive d e) :=
    List.mem_filter.mpr ⟨List.mem_of_find?_eq_some h, List.find?_some h⟩
  have := List.length_pos.mpr (List.ne_nil_of_mem hmem)
  omega

theorem activeCount_eq_zero_of_findActive_none {s : Store} {d e : Str}
    (h : findActive s d e = none) : activeCount s d e = 0 := by
  unfold findActive at h
  unfold activeCount
  rw [List.filter_eq_nil_iff.mpr (List.find?_eq_none.mp h)]
  rfl

theorem matchesActive_self (d e : Str) (i now : Nat) :
    matchesActive d e { id := i, domain := d, email := e,
                        notified := false, created_at := now } = true := by
  simp [matchesActive]

theorem matchesActive_new {d e D E : Str} {i now : Nat}
    (h : matchesActive d e { id := i, domain := D, email := E,
                             notified := false, created_at := now } = true) :
    D = d ∧ E = e := by
  simp [matchesActive] at h
  exact h

theorem notify_preserves_at_most_one (s : Store) (now : Nat) (rawD rawE : Str)
    (h : ∀ d e, activeCount s d e ≤ 1) :
    ∀ d e, activeCount (notify s now rawD rawE).2 d e ≤ 1 := by
  intro d e
  simp only [notify]
  cases hf : findActive s (notifyDomainOf rawD) (notifyEmailOf rawE) with
  | some r => exact h d e
  | none =>
    show activeCount
      (s ++ [{ id := nextId s, domain := notifyDomainOf rawD,
               email := notifyEmailOf rawE, notified := false,
               created_at := now }]) d e ≤ 1
    unfold activeCount
    rw [List.filter_append, List.length_append]
    by_cases hm : matchesActive d e
        { id := nextId s, domain := notifyDomainOf rawD,
          email := notifyEmailOf rawE, notified := false,
          created_at := now } = true
    · obtain ⟨hd, he⟩ := matchesActive_new hm
      subst hd
      subst he
      have h0 := activeCount_eq_zero_of_findActive_none hf
      unfold activeCount at h0
      rw [h0]
      simp [hm]
    · have h1 := h d e
      unfold activeCount at h1
      simp [hm]
      omega

theorem step_eq_of_notified_false {env : PollEnv} {r : Registration}
    (h : (if r.notified then r else processEntry env r).notified = false) :
    (if r.notified then r else processEntry env r) = r := by
  by_cases hr : r.notified = true
  · rw [if_pos hr]
  · rw [if_neg hr] at h ⊢
    unfold processEntry at h ⊢
    cases hl : env.lookup r with
    | error => rfl
    | ok avail =>
      rw [hl] at h
      cases avail with
      | false => rfl
      | true =>
        by_cases hs : env.sendOk r = true
        · simp [hs] at h
        · simp [hs]

theorem poll_activeCount_le (env : PollEnv) (d e : Str) :
    ∀ s : Store, activeCount (process_notifications env s) d e ≤ activeCount s d e := by
  intro s
  induction s with
  | nil => simp [process_notifications, activeCount]
  | cons r s ih =>
    unfold process_notifications activeCount at ih ⊢
    simp only [List.map_cons, List.filter_cons]
    by_cases hm : matchesActive d e (if r.notified then r else processEntry env r) = true
    · have hnot : (if r.notified then r else processEntry env r).notified = false := by
        simp [matchesActive] at hm
        exact hm.2
      have hfr := step_eq_of_notified_false hnot
      have hm2 : matchesActive d e r = true := by rw [← hfr]; exact hm
      rw [if_pos hm, if_pos hm2]
      simp only [List.length_cons]
      omega
    · rw [if_neg hm]
      by_cases hm2 : matchesActive d e r = true
      · rw [if_pos hm2]
        simp only [List.length_cons]
        omega
      · rw [if_neg hm2]
        omega

/-- Every reachable store state satisfies the data-model invariant: at most
one active (`notified=false`) row per (domain, email) pair.  This is the
invariant under which the duplicate-registration claim is stated. -/
theorem reachable_at_most_one_active (s : Store) (h : Reachable s) :
    ∀ d e, activeCount s d e ≤ 1 := by
  induction h with
  | init => intro d e; simp [activeCount]
  | notifyStep s now rD rE _ ih => exact notify_preserves_at_most_one s now rD rE ih
  | pollStep s env _ ih =>
    intro d e
    exact le_trans (poll_activeCount_le env d e s) (ih d e)

/-- C2: from any store holding at most one active row for the normalized
(domain, email) pair, calling the `/notify` handler twice in a row with
the same raw inputs leaves exactly one active row for the pair; the second
call returns the already-registered outcome (HTTP 200) and leaves the
store exactly as the first call left it. -/
theorem notify_twice_spec (s : Store) (n1 n2 : Nat) (rawD rawE : Str)
    (hdedup : activeCount s (notifyDomainOf rawD) (notifyEmailOf rawE) ≤ 1) :
    activeCount (notify (notify s n1 rawD rawE).2 n2 rawD rawE).2
        (notifyDomainOf rawD) (notifyEmailOf rawE) = 1 ∧
    (notify (notify s n1 rawD rawE).2 n2 rawD rawE).1 = .alreadyRegistered ∧
    notifyStatus (notify (notify s n1 rawD rawE).2 n2 rawD rawE).1 = 200 ∧
    (notify (notify s n1 rawD rawE).2 n2 rawD rawE).2 = (notify s n1 rawD rawE).2 := by
  cases h1 : findActive s (notifyDomainOf rawD) (notifyEmailOf rawE) with
  | some r =>
    have hs1 : (notify s n1 rawD rawE).2 = s := by simp [notify, h1]
    have hcount : activeCount s (notifyDomainOf rawD) (notifyEmailOf rawE) = 1 := by
      have := activeCount_pos_of_findActive_some h1
      omega
    rw [hs1]
    simp [notify, h1, notifyStatus, hcount]
  | none =>
    have hzero := activeCount_eq_zero_of_findActive_none h1
    have hs1 : (notify s n1 rawD rawE).2 =
        s ++ [{ id := nextId s, domain := notifyDomainOf rawD,
                email := notifyEmailOf rawE, notified := false,
                created_at := n1 }] := by
      simp [notify, h1]
    rw [hs1]
    have hfind2 : findActive
        (s ++ [{ id := nextId s, domain := notifyDomainOf rawD,
                 email := notifyEmailOf rawE, notified := false,
                 created_at := n1 }])
        (notifyDomainOf rawD) (notifyEmailOf rawE) =
        some { id := nextId s, domain := notifyDomainOf rawD,
               email := notifyEmailOf rawE, notified := false,
               created_at := n1 } := by
      unfold findActive at h1 ⊢
      rw [List.find?_append, h1, Option.none_or]
      simp [List.find?, matchesActive_self]
    have hcount2 : activeCount
        (s ++ [{ id := nextId s, domain := notifyDomainOf rawD,
                 email := notifyEmailOf rawE, notified := false,
                 created_at := n1 }])
        (notifyDomainOf rawD) (notifyEmailOf rawE) = 1 := by
      unfold activeCount at hzero ⊢
      rw [List.filter_append, List.length_append, hzero]
      simp [matchesActive_self]
    simp [notify, hfind2, notifyStatus, hcount2]

/-- Witness for C2 on the empty store with raw inputs `" Foo"` and
`"A@B.com"`. -/
theorem notify_twice_spec_witness :
    activeCount (notify (notify [] 1 (lit " Foo") (lit "A@B.com")).2 2
        (lit " Foo") (lit "A@B.com")).2
        (notifyDomainOf (lit " Foo")) (notifyEmailOf (lit "A@B.com")) = 1 ∧
    (notify (notify [] 1 (lit " Foo") (lit "A@B.com")).2 2
        (lit " Foo") (lit "A@B.com")).1 = .alreadyRegistered ∧
    notifyStatus (notify (notify [] 1 (lit " Foo") (lit "A@B.com")).2 2
        (lit " Foo") (lit "A@B.com")).1 = 200 ∧
    (notify (notify [] 1 (lit " Foo") (lit "A@B.com")).2 2
        (lit " Foo") (lit "A@B.com")).2 = (notify [] 1 (lit " Foo") (lit "A@B.com")).2 :=
  notify_twice_spec [] 1 2 (lit " Foo") (lit "A@B.com") (by decide)

/-- C7: when the store holds no active row for the normalized pair — in
particular after every row for the pair has been marked notified — a
`/notify` call is not treated as a duplicate: it appends a fresh row with
`notified = false` and returns the created outcome (HTTP 201), so
historical notified rows coexist with the one new active row. -/
theorem notify_after_notified (s : Store) (now : Nat) (rawD rawE : Str)
    (hnone : findActive s (notifyDomainOf rawD) (notifyEmailOf rawE) = none) :
    notify s now rawD rawE =
      (.registered,
       s ++ [{ id := nextId s, domain := notifyDomainOf rawD,
               email := notifyEmailOf rawE, notified := false,
               created_at := now }]) ∧
    notifyStatus (notify s now rawD rawE).1 = 201 := by
  constructor
  · simp [notify, hnone]
  · simp [notify, hnone, notifyStatus]

/-- Witness for C7: a store with two historical notified rows for
`("foo.com", "a@b.com")` accepts a new registration for the same pair. -/
theorem notify_after_notified_witness :
    notify [⟨1, lit "foo.com", lit "a@b.com", true, 0⟩,
            ⟨2, lit "foo.com", lit "a@b.com", true, 5⟩] 9
        (lit "foo") (lit "a@b.com") =
      (.registered,
       [⟨1, lit "foo.com", lit "a@b.com", true, 0⟩,
        ⟨2, lit "foo.com", lit "a@b.com", true, 5⟩] ++
       [{ id := 3, domain := lit "foo.com", email := lit "a@b.com",
          notified := false, created_at := 9 }]) ∧
    notifyStatus (notify [⟨1, lit "foo.com", lit "a@b.com", true, 0⟩,
            ⟨2, lit "foo.com", lit "a@b.com", true, 5⟩] 9
        (lit "foo") (lit "a@b.com")).1 = 201 :=
  notify_after_notified
    [⟨1, lit "foo.com", lit "a@b.com", true, 0⟩,
     ⟨2, lit "foo.com", lit "a@b.com", true, 5⟩] 9
    (lit "foo") (lit "a@b.com") rfl

/-- C10: the `/notify` handler validates nothing — a missing or empty
domain (the `data.get` default `""`) normalizes to exactly `".com"`, an
empty or missing email is stored as the empty string, and every request
ends in HTTP 200 or 201, never a client error. -/
theorem notify_no_validation (s : Store) (now : Nat) :
    notifyDomainOf [] = lit ".com" ∧
    notifyEmailOf [] = [] ∧
    (notifyStatus (notify s now [] []).1 = 200 ∨
     notifyStatus (notify s now [] []).1 = 201) ∧
    (findActive s (lit ".com") [] = none →
      notify s now [] [] =
        (.registered,
         s ++ [{ id := nextId s, domain := lit ".com", email := [],
                 notified := false, created_at := now }])) ∧
    (∀ r, findActive s (lit ".com") [] = some r →
      notify s now [] [] = (.alreadyRegistered, s)) := by
  have hd : notifyDomainOf [] = lit ".com" := rfl
  have he : notifyEmailOf [] = ([] : Str) := rfl
  refine ⟨hd, he, ?_, ?_, ?_⟩
  · unfold notify
    cases h : findActive s (notifyDomainOf []) (notifyEmailOf []) <;>
      simp [h, notifyStatus]
  · intro h
    have h2 : findActive s (notifyDomainOf []) (notifyEmailOf []) = none := h
    simp [notify, h2, hd, he]
    rw [h]
  · intro r h
    have h2 : findActive s (notifyDomainOf []) (notifyEmailOf []) = some r := h
    simp [notify, h2, hd, he]
    rw [h]

/-- Witness for C10 on the empty store. -/
theorem notify_no_validation_witness :
    notify [] 0 [] [] =
      (.registered,
       [] ++ [{ id := 1, domain := lit ".com", email := [],
                notified := false, created_at := 0 }]) :=
  ((notify_no_validation [] 0).2.2.2.1) rfl

/-- C6 counterexample: for the dot-free query `" Foo"`, `/check` does not
perform its primary lookup on `" Foo" + ".com"` lower-cased (which is
`" foo.com"`): with an oracle that raises exactly on `" foo.com"`, the
request still succeeds, and the domain it reports (the one it looked up)
is `"foo.com"`, because the handler also strips surrounding whitespace. -/
theorem check_normalization_counterexample :
    check_domain (fun d => if d == lit " foo.com" then .error else .ok false)
        (lit " Foo") 1 = .ok (lit "foo.com") false [] ∧
    pyLower (lit " Foo" ++ lit ".com") = lit " foo.com" ∧
    lit "foo.com" ≠ lit " foo.com" := by
  refine ⟨?_, by decide, by decide⟩
  rfl

/-- C6 (amended): `/check` and `/notify` apply the identical domain
normalization — the input is stripped of surrounding whitespace and
lower-cased, and if it contains no dot the suffix ".com" is appended; in
particular, for every query without a dot, `/check` performs its primary
availability lookup on `strip(q).lower() + ".com"`. -/
theorem check_notify_normalization (q : Str) (lookup : Str → CheckResult) (n : Int) :
    checkDomainOf q = notifyDomainOf q ∧
    (pyContains q '.' = false →
      checkDomainOf q = pyLower (pyStrip q) ++ lit ".com") ∧
    (lookup (checkDomainOf q) = .error → check_domain lookup q n = .serverError) ∧
    (∀ b, lookup (checkDomainOf q) = .ok b →
      check_domain lookup q n =
        .ok (checkDomainOf q) b
          (collectSuggestions lookup n []
            (generate_suggestions (pyLower (pyStrip q)) n))) := by
  refine ⟨rfl, ?_, ?_, ?_⟩
  · intro h
    unfold checkDomainOf
    rw [if_neg]
    rw [normalized_noDot h]
    exact Bool.false_ne_true
  · intro h
    unfold check_domain
    rw [h]
  · intro b h
    unfold check_domain
    rw [h]

/-- Witness for the amended C6 at `q = "bar"` with an all-raising oracle. -/
theorem check_notify_normalization_witness :
    checkDomainOf (lit "bar") = notifyDomainOf (lit "bar") ∧
    checkDomainOf (lit "bar") = pyLower (pyStrip (lit "bar")) ++ lit ".com" ∧
    check_domain (fun _ => .error) (lit "bar") 6 = .serverError :=
  ⟨(check_notify_normalization (lit "bar") (fun _ => .error) 6).1,
   (check_notify_normalization (lit "bar") (fun _ => .error) 6).2.1 rfl,
   (check_notify_normalization (lit "bar") (fun _ => .error) 6).2.2.1 rfl⟩

theorem collectSuggestions_length_le (lookup : Str → CheckResult) (maxS : Int) :
    ∀ (cands acc : List Str), (acc.length : Int) < maxS →
      ((collectSuggestions lookup maxS acc cands).length : Int) ≤ maxS := by
  intro cands
  induction cands with
  | nil => intro acc h; unfold collectSuggestions; omega
  | cons c rest ih =>
    intro acc h
    rw [collectSuggestions]
    cases hl : lookup c with
    | error => exact ih acc h
    | ok avail =>
      cases avail with
      | false =>
        show ((if maxS ≤ (acc.length : Int) then acc
               else collectSuggestions lookup maxS acc rest).length : Int) ≤ maxS
        split
        · omega
        · exact ih acc h
      | true =>
        show ((if maxS ≤ ((acc ++ [c]).length : Int) then acc ++ [c]
               else collectSuggestions lookup maxS (acc ++ [c]) rest).length : Int) ≤ maxS
        have hlen : (acc ++ [c]).length = acc.length + 1 := by simp
        split
        · omega
        · rename_i hlt
          push_neg at hlt
          exact ih (acc ++ [c]) (by omega)

/-- C8 counterexample: the cap is not honoured for a negative
`max_suggestions`.  With `max_suggestions = -1` (a legal JSON int) and an
all-available oracle, `/check` on `"foo"` returns one suggestion, and
`1 ≤ -1` is false — so "suggestions contains at most max_suggestions
entries" fails on the code as universally stated. -/
theorem check_cap_counterexample :
    check_domain (fun _ => .ok true) (lit "foo") (-1) =
      .ok (lit "foo.com") true [lit "foo.com"] ∧
    ¬ ((([lit "foo.com"] : List Str).length : Int) ≤ -1) := by
  exact ⟨rfl, by decide⟩

/-- C8 (amended): if the primary lookup of `/check` raises, the response is
the 500 error body carrying no suggestions; if it succeeds, the response is
200 with the normalized domain, the availability boolean and, for every
nonnegative `max_suggestions`, at most `max_suggestions` suggestions; and a
raising lookup for an individual suggestion candidate is skipped, never
surfacing to the caller. -/
theorem check_domain_spec (lookup : Str → CheckResult) (q : Str) (n : Int)
    (hn : 0 ≤ n) :
    (lookup (checkDomainOf q) = .error → check_domain lookup q n = .serverError) ∧
    (∀ b, lookup (checkDomainOf q) = .ok b →
      ∃ sugg : List Str, check_domain lookup q n = .ok (checkDomainOf q) b sugg ∧
        (sugg.length : Int) ≤ n) ∧
    (∀ c rest acc, lookup c = .error →
      collectSuggestions lookup n acc (c :: rest) =
        collectSuggestions lookup n acc rest) := by
  refine ⟨(check_notify_normalization q lookup n).2.2.1, ?_, ?_⟩
  · intro b h
    refine ⟨collectSuggestions lookup n []
      (generate_suggestions (pyLower (pyStrip q)) n),
      (check_notify_normalization q lookup n).2.2.2 b h, ?_⟩
    rcases lt_or_eq_of_le hn with hpos | hzero
    · exact collectSuggestions_length_le lookup n _ [] (by simpa using hpos)
    · rw [← hzero]
      have hgen : generate_suggestions (pyLower (pyStrip q)) 0 = [] := by
        simp [generate_suggestions, pySlice]
      rw [hgen]
      simp [collectSuggestions]
  · intro c rest acc h
    conv_lhs => rw [collectSuggestions]
    rw [h]

/-- Witness for C8 at an all-available oracle, `q = "foo"`, `n = 1`. -/
theorem check_domain_spec_witness :
    ∃ sugg : List Str,
      check_domain (fun _ => .ok true) (lit "foo") 1 =
        .ok (checkDomainOf (lit "foo")) true sugg ∧ (sugg.length : Int) ≤ 1 :=
  ((check_domain_spec (fun _ => .ok true) (lit "foo") 1 (by decide)).2.1) true rfl

/-- C1: for every row of the store, one poll cycle flips its `notified`
flag to true exactly when the row was pending, its availability lookup
returned available, and its mail send succeeded; when the lookup raises or
returns unavailable, or the send fails, the row is unchanged; and a row
already notified is never touched, so the flag never reverts. -/
theorem poller_transition_spec (env : PollEnv) (s : Store) (i : Nat)
    (r r2 : Registration) (hr : s[i]? = some r)
    (hr2 : (process_notifications env s)[i]? = some r2) :
    (r.notified = true → r2 = r) ∧
    (r.notified = false →
      (r2.notified = true ↔ env.lookup r = .ok true ∧ env.sendOk r = true) ∧
      ((env.lookup r ≠ .ok true ∨ env.sendOk r = false) → r2 = r)) := by
  unfold process_notifications at hr2
  rw [List.getElem?_map, hr] at hr2
  simp only [Option.map_some'] at hr2
  have heq := Option.some.inj hr2
  subst heq
  constructor
  · intro h
    simp [h]
  · intro h
    rw [if_neg (by simp [h])]
    unfold processEntry
    cases hl : env.lookup r with
    | error => simp [h]
    | ok avail =>
      cases avail with
      | false => simp [h]
      | true =>
        cases hs : env.sendOk r with
        | false => simp [h]
        | true => simp

/-- Witness for C1: a single pending row, an available lookup and a
successful send flip the flag. -/
theorem poller_transition_spec_witness :
    ((false : Bool) = true →
      ({ id := 1, domain := lit "a.com", email := lit "x", notified := true,
         created_at := 0 } : Registration) =
      { id := 1, domain := lit "a.com", email := lit "x", notified := false,
        created_at := 0 }) ∧
    ((false : Bool) = false →
      ((true : Bool) = true ↔
        CheckResult.ok true = CheckResult.ok true ∧ (true : Bool) = true) ∧
      ((CheckResult.ok true ≠ CheckResult.ok true ∨ (true : Bool) = false) →
        ({ id := 1, domain := lit "a.com", email := lit "x", notified := true,
           created_at := 0 } : Registration) =
        { id := 1, domain := lit "a.com", email := lit "x", notified := false,
          created_at := 0 })) :=
  poller_transition_spec ⟨fun _ => .ok true, fun _ => true⟩
    [{ id := 1, domain := lit "a.com", email := lit "x", notified := false,
       created_at := 0 }] 0
    { id := 1, domain := lit "a.com", email := lit "x", notified := false,
      created_at := 0 }
    { id := 1, domain := lit "a.com", email := lit "x", notified := true,
      created_at := 0 }
    rfl rfl

/-- C3: within one poll cycle, every entry of the pending snapshot has its
availability lookup attempted, and its mail send attempted whenever its
lookup returned available — independently of any other entry's lookup
error or send failure, which are caught per entry and do not abort the
cycle. -/
theorem poller_isolation_spec (env : PollEnv) (s : Store) (r : Registration)
    (hmem : r ∈ s) (hpending : r.notified = false) :
    Event.lookupAttempt r.domain ∈ cycleTrace env s ∧
    (env.lookup r = .ok true →
      Event.sendAttempt r.email r.domain ∈ cycleTrace env s) := by
  have hmemf : r ∈ s.filter (fun x => !x.notified) :=
    List.mem_filter.mpr ⟨hmem, by rw [hpending]; rfl⟩
  have htrace : entryTrace env r ∈
      (s.filter (fun x => !x.notified)).map (entryTrace env) :=
    List.mem_map.mpr ⟨r, hmemf, rfl⟩
  constructor
  · exact List.mem_flatten.mpr ⟨entryTrace env r, htrace, List.mem_cons_self _ _⟩
  · intro h
    refine List.mem_flatten.mpr ⟨entryTrace env r, htrace, ?_⟩
    unfold entryTrace
    rw [h]
    exact List.mem_cons_of_mem _ (List.mem_cons_self _ _)

/-- Witness for C3: in a two-row snapshot where the first row's lookup
raises, the second row's lookup and send are still attempted. -/
theorem poller_isolation_spec_witness :
    Event.lookupAttempt (lit "b.com") ∈
      cycleTrace ⟨fun r => if r.id == 1 then .error else .ok true, fun _ => false⟩
        [{ id := 1, domain := lit "a.com", email := lit "x", notified := false,
           created_at := 0 },
         { id := 2, domain := lit "b.com", email := lit "y", notified := false,
           created_at := 0 }] ∧
    Event.sendAttempt (lit "y") (lit "b.com") ∈
      cycleTrace ⟨fun r => if r.id == 1 then .error else .ok true, fun _ => false⟩
        [{ id := 1, domain := lit "a.com", email := lit "x", notified := false,
           created_at := 0 },
         { id := 2, domain := lit "b.com", email := lit "y", notified := false,
           created_at := 0 }] := by
  have h := poller_isolation_spec
    ⟨fun r => if r.id == 1 then .error else .ok true, fun _ => false⟩
    [{ id := 1, domain := lit "a.com", email := lit "x", notified := false,
       created_at := 0 },
     { id := 2, domain := lit "b.com", email := lit "y", notified := false,
       created_at := 0 }]
    { id := 2, domain := lit "b.com", email := lit "y", notified := false,
      created_at := 0 }
    (by simp) rfl
  exact ⟨h.1, h.2 rfl⟩

end MicroSaas
